import Mathlib

/-!
Verification development for the vps-systems-analysis trading engine.

Prices and price-derived quantities are modelled as exact rationals; the
Python floats of the source are idealized to field arithmetic.  Every
definition below is a direct translation of a function of the repository
(file and symbol named in its doc comment); state mutation becomes
explicit state passing.
-/

/-- Trade side, the LONG/SHORT strings of the source. -/
inductive Side
  | LONG
  | SHORT
  deriving DecidableEq, BEq

/-- Opposite side. -/
def Side.opp : Side → Side
  | .LONG => .SHORT
  | .SHORT => .LONG

/-- Market snapshot fields read by the exit and risk modules
(src/emre3/emre/risk/engine.py and src/emre/exit/micro_tp1.py).  The
Python mem dict carries closes_1m, vol_1m, range15, range60, regime and
entry_mode; absent keys are modelled with Option. -/
structure Mem where
  closes_1m : List ℚ
  vol_1m : ℚ := 0
  range15 : ℚ := 0
  range60 : ℚ := 0
  regime : Option String := none
  entry_mode : Option String := none

/-- State of one leg-local TP1 micro momentum confirmer
(src/emre/exit/micro_tp1.py, class MicroTP1): a bounded deque of recent
confirming closes plus the confirmed flag. -/
structure MicroTP1 where
  closes : List ℚ
  confirmed : Bool
  maxlen : ℕ

/-- Fresh confirmer, MicroTP1.__init__ with the default maxlen=5. -/
def MicroTP1.init : MicroTP1 :=
  { closes := [], confirmed := false, maxlen := 5 }

/-- MicroTP1.reset: clear the window and the confirmed flag. -/
def MicroTP1.reset (s : MicroTP1) : MicroTP1 :=
  { s with closes := [], confirmed := false }

/-- Append on a deque with maxlen: the oldest entries are evicted from
the left when the bound is exceeded. -/
def dequeAppend (maxlen : ℕ) (w : List ℚ) (x : ℚ) : List ℚ :=
  let w2 := w ++ [x]
  if maxlen < w2.length then w2.drop (w2.length - maxlen) else w2

/-- Last element of a close series, closes[-1] in Python (series known
nonempty at every use site; 0 is the out-of-range default). -/
def pyLast (l : List ℚ) : ℚ := l.getD (l.length - 1) 0

/-- Second-to-last element, closes[-2]. -/
def pyPrev (l : List ℚ) : ℚ := l.getD (l.length - 2) 0

/-- MicroTP1.update (src/emre/exit/micro_tp1.py lines 27-66), state
passing made explicit: returns the successor confirmer state and the
optional confirming price.  The mem-is-None and side-string guards of
the Python are discharged by the types. -/
def MicroTP1.update (s : MicroTP1) (mem : Mem) (entry : ℚ) (side : Side) :
    MicroTP1 × Option ℚ :=
  let closes := mem.closes_1m
  if closes.length < 2 then (s, none)
  else
    let last := pyLast closes
    let prev := pyPrev closes
    -- directional micro momentum
    match side with
    | .LONG =>
      if last ≤ prev then (s.reset, none)
      else
        let w := dequeAppend s.maxlen s.closes last
        let s1 := { s with closes := w }
        if w.length < 2 then (s1, none)
        else
          let total_move := |pyLast w - w.getD 0 0|
          let min_move := entry * 0.00015
          if total_move < min_move then (s1, none)
          else
            let buffer_bp := entry * 0.00005
            if last < entry + buffer_bp then (s1, none)
            else ({ s1 with confirmed := true }, some last)
    | .SHORT =>
      if prev ≤ last then (s.reset, none)
      else
        let w := dequeAppend s.maxlen s.closes last
        let s1 := { s with closes := w }
        if w.length < 2 then (s1, none)
        else
          let total_move := |pyLast w - w.getD 0 0|
          let min_move := entry * 0.00015
          if total_move < min_move then (s1, none)
          else
            let buffer_bp := entry * 0.00005
            if entry - buffer_bp < last then (s1, none)
            else ({ s1 with confirmed := true }, some last)

/-- Decision record of the reverse authority engine
(src/emre/exit/reverse_engine.py, dataclass ReverseDecision); the meta
dict is modelled as a flat association list of strings. -/
structure ReverseDecision where
  open_side : Option Side := none
  close_side : Option Side := none
  tp1_price : Option ℚ := none
  meta : List (String × String) := []
  deriving DecidableEq

/-- Printable side name, for decision metadata. -/
def sideName : Side → String
  | .LONG => "LONG"
  | .SHORT => "SHORT"

/-- Reverse authority engine state: one confirmer per side
(src/emre/exit/reverse_engine.py, class ReverseEngine). -/
structure ReverseEngine where
  tp1_long : MicroTP1
  tp1_short : MicroTP1

/-- ReverseEngine.__init__. -/
def ReverseEngine.init : ReverseEngine :=
  { tp1_long := MicroTP1.init, tp1_short := MicroTP1.init }

/-- ReverseEngine.on_new_leg_opened (lines 32-37): reset only the
confirmer of the side that just opened. -/
def ReverseEngine.on_new_leg_opened (eng : ReverseEngine) (side : Side) :
    ReverseEngine :=
  match side with
  | .LONG => { eng with tp1_long := eng.tp1_long.reset }
  | .SHORT => { eng with tp1_short := eng.tp1_short.reset }

/-- ReverseEngine.on_counter_entry (lines 39-41): always decide to open
the counter side; no close_side is ever set. -/
def ReverseEngine.on_counter_entry (existing_side counter_side : Side) :
    ReverseDecision :=
  { open_side := some counter_side,
    meta := [("reason", "counter_entry"), ("existing", sideName existing_side)] }

/-- ReverseEngine.on_tick_tp1_check (lines 43-55): run the side-local
confirmer; return the updated engine and, on confirmation, a decision
carrying the confirming price. -/
def ReverseEngine.on_tick_tp1_check (eng : ReverseEngine) (mem : Mem)
    (side : Side) (entry : ℚ) : ReverseEngine × Option ReverseDecision :=
  match side with
  | .LONG =>
    let r := eng.tp1_long.update mem entry .LONG
    ({ eng with tp1_long := r.1 },
      r.2.map fun p =>
        { meta := [("reason", "tp1_confirm"), ("side", "LONG")], tp1_price := some p })
  | .SHORT =>
    let r := eng.tp1_short.update mem entry .SHORT
    ({ eng with tp1_short := r.1 },
      r.2.map fun p =>
        { meta := [("reason", "tp1_confirm"), ("side", "SHORT")], tp1_price := some p })

/-- Target-hit flags of a leg, the tp_hits dict TP1..TP4 → bool
(src/emre3/emre/core/position.py line 15). -/
structure TpHits where
  tp1 : Bool := false
  tp2 : Bool := false
  tp3 : Bool := false
  tp4 : Bool := false
  deriving DecidableEq

/-- One side of exposure (src/emre3/emre/core/position.py, dataclass
Leg).  The side string NA of a closed leg is modelled as none. -/
structure Leg where
  is_open : Bool := false
  side : Option Side := none
  entry : ℚ := 0
  stop : ℚ := 0
  opened_ts : ℤ := 0
  risk_set_id : String := ""
  last_risk_update_ts : ℤ := 0
  tp_hits : TpHits := {}
  stop_touched : Bool := false
  stop_touch_ts : ℤ := 0
  stop_touch_price : ℚ := 0
  deriving DecidableEq

/-- Leg.reset (position.py lines 21-32): every field back to default. -/
def Leg.reset (_ : Leg) : Leg := {}

/-- Dual-leg position store (position.py, dataclass Position). -/
structure Position where
  long : Leg := {}
  short : Leg := {}
  deriving DecidableEq

/-- Position.has_long. -/
def Position.has_long (p : Position) : Bool :=
  p.long.is_open && (p.long.side == some Side.LONG)

/-- Position.has_short. -/
def Position.has_short (p : Position) : Bool :=
  p.short.is_open && (p.short.side == some Side.SHORT)

/-- Position.any_open. -/
def Position.any_open (p : Position) : Bool :=
  p.has_long || p.has_short

/-- Position.get_leg; with side an enum the unknown-side None branch of
the Python cannot arise. -/
def Position.get_leg (p : Position) (side : Side) : Leg :=
  match side with
  | .LONG => p.long
  | .SHORT => p.short

/-- Functional update of the slot addressed by get_leg (the in-place
mutation of the Python dataclass). -/
def Position.set_leg (p : Position) (side : Side) (leg : Leg) : Position :=
  match side with
  | .LONG => { p with long := leg }
  | .SHORT => { p with short := leg }

/-- Position.open_leg (position.py lines 59-70): an already-open leg is
returned unchanged; otherwise the slot opens with the given entry and
fresh target-hit flags.  Fields not assigned by the Python (stop,
risk_set_id, stop_touched, ...) keep their previous values. -/
def Position.open_leg (p : Position) (side : Side) (entry : ℚ) (ts : ℤ) :
    Position × Leg :=
  let leg := p.get_leg side
  if leg.is_open then (p, leg)
  else
    let leg2 := { leg with
      is_open := true
      side := some side
      entry := entry
      opened_ts := ts
      tp_hits := {} }
    (p.set_leg side leg2, leg2)

/-- Position.close_leg (position.py lines 72-76): reset the slot. -/
def Position.close_leg (p : Position) (side : Side) : Position :=
  p.set_leg side ((p.get_leg side).reset)

/-- Risk parameters with their environment defaults
(src/emre/risk/config.py, class RiskConfig). -/
structure RiskConfig where
  K_VOL_STOP : ℚ := 2.2
  MIN_STOP_BP : ℚ := 0.0008
  STRUCT_LOOKBACK_1M : ℕ := 30
  STRUCT_BUFFER_BP : ℚ := 0.0002
  IMPULSE_LOOKBACK_1M : ℕ := 15
  TP2_IMPULSE_MULT : ℚ := 1
  TP2_IMPULSE_MULT_HIGHVOL : ℚ := 1.2
  HIGHVOL_THRESHOLD : ℚ := 1.5
  TP3_TREND_MULT : ℚ := 0.5
  TP4_TREND_MULT : ℚ := 1.2
  M2 : ℚ := 1.8
  M3 : ℚ := 3
  M4 : ℚ := 4.5
  MAX_TP_DRIFT : ℚ := 0.20

/-- Immutable risk snapshot (src/emre3/risk/models.py, dataclass
RiskSet); the diagnostic meta dict is not used for control flow and is
modelled as an association list. -/
structure RiskSet where
  id : String
  created_ts : ℤ
  stop : ℚ
  tp2 : ℚ
  tp3 : ℚ
  tp4 : ℚ
  meta : List (String × String) := []

/-- The last lookback elements of a series, xs[-lookback:] with the
whole list when shorter. -/
def pyTail (xs : List ℚ) (lookback : ℕ) : List ℚ :=
  if lookback ≤ xs.length then xs.drop (xs.length - lookback) else xs

/-- Maximum of a close series, 0 when empty. -/
def listMax : List ℚ → ℚ
  | [] => 0
  | x :: xs => xs.foldl max x

/-- Minimum of a close series, 0 when empty. -/
def listMin : List ℚ → ℚ
  | [] => 0
  | x :: xs => xs.foldl min x

/-- engine.py _structure_extreme: directional extreme of the recent
1m closes, 0 on an empty series. -/
def structureExtreme (closes_1m : List ℚ) (side : Side) (lookback : ℕ) : ℚ :=
  if closes_1m = [] then 0
  else
    let xs := pyTail closes_1m lookback
    match side with
    | .LONG => listMin xs
    | .SHORT => listMax xs

/-- engine.py _impulse_len: high-low spread of the recent closes. -/
def impulseLen (closes_1m : List ℚ) (lookback : ℕ) : ℚ :=
  if closes_1m = [] then 0
  else
    let xs := pyTail closes_1m lookback
    listMax xs - listMin xs

/-- engine.py _trend_anchor: recent extreme in trade direction. -/
def trendAnchor (closes_1m : List ℚ) (side : Side) (lookback : ℕ := 60) : ℚ :=
  if closes_1m = [] then 0
  else
    let xs := pyTail closes_1m lookback
    match side with
    | .LONG => listMax xs
    | .SHORT => listMin xs

/-- engine.py _id_from: a sha1-derived tag of (ts, side, entry); the
digest itself carries no logic and is modelled by plain concatenation. -/
def idFrom (ts : ℤ) (side : Side) : String :=
  "risk_" ++ toString ts ++ "_" ++ sideName side

/-- RiskEngine._calc_stop_phase0 (engine.py lines 98-136). -/
def calcStopPhase0 (cfg : RiskConfig) (mem : Mem) (side : Side) (entry : ℚ) : ℚ :=
  let closes := mem.closes_1m
  let dist_vol := entry * cfg.K_VOL_STOP * mem.vol_1m
  let dist_min := entry * cfg.MIN_STOP_BP
  let dist_range := entry * max mem.range15 mem.range60 * 0.5
  let dist := max (max dist_vol dist_min) dist_range
  let stop_vol0 := match side with
    | .LONG => entry - dist
    | .SHORT => entry + dist
  let extreme := structureExtreme closes side cfg.STRUCT_LOOKBACK_1M
  let pad := entry * cfg.STRUCT_BUFFER_BP
  let entry_mode := (mem.entry_mode.getD "").toUpper
  let stop_vol := if entry_mode = "EARLY" then
      match side with
      | .LONG => entry - dist * 1.4
      | .SHORT => entry + dist * 1.4
    else stop_vol0
  let stop_struct := if extreme = 0 then stop_vol
    else match side with
      | .LONG => extreme - pad
      | .SHORT => extreme + pad
  match side with
  | .LONG => min stop_struct stop_vol
  | .SHORT => max stop_struct stop_vol

/-- RiskEngine._calc_stop_phase1plus (engine.py lines 138-148): a pure
structure-extreme proposal, current stop returned on an empty series. -/
def calcStopPhase1plus (cfg : RiskConfig) (mem : Mem) (side : Side)
    (entry current_stop : ℚ) : ℚ :=
  if mem.closes_1m = [] then current_stop
  else
    let extreme := structureExtreme mem.closes_1m side cfg.IMPULSE_LOOKBACK_1M
    let pad := entry * cfg.STRUCT_BUFFER_BP
    match side with
    | .LONG => extreme - pad
    | .SHORT => extreme + pad

/-- RiskEngine._calc_tps (engine.py lines 152-203). -/
def calcTps (cfg : RiskConfig) (mem : Mem) (side : Side) (entry stop : ℚ) :
    ℚ × ℚ × ℚ :=
  let closes := mem.closes_1m
  let regime := (mem.regime.getD "RANGE").toUpper
  let imp0 := impulseLen closes cfg.IMPULSE_LOOKBACK_1M
  let imp := if imp0 ≤ 0 then |entry - stop| else imp0
  let mult := if cfg.HIGHVOL_THRESHOLD < mem.vol_1m then
      cfg.TP2_IMPULSE_MULT_HIGHVOL else cfg.TP2_IMPULSE_MULT
  let tp2 := match side with
    | .LONG => entry + imp * mult
    | .SHORT => entry - imp * mult
  if regime = "TREND" then
    let anchor0 := trendAnchor closes side 60
    let anchor := if anchor0 = 0 then entry else anchor0
    match side with
    | .LONG => (tp2, anchor + imp * cfg.TP3_TREND_MULT, anchor + imp * cfg.TP4_TREND_MULT)
    | .SHORT => (tp2, anchor - imp * cfg.TP3_TREND_MULT, anchor - imp * cfg.TP4_TREND_MULT)
  else
    let r := max |entry - stop| (entry * cfg.MIN_STOP_BP)
    match side with
    | .LONG => (tp2, entry + cfg.M3 * r, entry + cfg.M4 * r)
    | .SHORT => (tp2, entry - cfg.M3 * r, entry - cfg.M4 * r)

/-- RiskEngine.open (engine.py lines 56-67). -/
def riskOpen (cfg : RiskConfig) (mem : Mem) (side : Side) (entry : ℚ)
    (ts : ℤ) : RiskSet :=
  let stop := calcStopPhase0 cfg mem side entry
  let tps := calcTps cfg mem side entry stop
  { id := idFrom ts side, created_ts := ts, stop := stop,
    tp2 := tps.1, tp3 := tps.2.1, tp4 := tps.2.2 }

/-- RiskEngine.update (engine.py lines 69-94): always a proposal; the
core decides apply/ignore. -/
def riskUpdate (cfg : RiskConfig) (mem : Mem) (side : Side) (entry : ℚ)
    (current : RiskSet) (ts : ℤ) (phase : ℕ) : RiskSet :=
  let stop := if phase = 0 then calcStopPhase0 cfg mem side entry
    else calcStopPhase1plus cfg mem side entry current.stop
  let tps := calcTps cfg mem side entry stop
  { id := idFrom ts side, created_ts := ts, stop := stop,
    tp2 := tps.1, tp3 := tps.2.1, tp4 := tps.2.2 }

/-- Mutable state of the core orchestrator that the verified transitions
touch (src/emre3/core/core.py, class EmreCore): the position store, the
reverse authority engine, the per-leg risk sets and phases.  Event
emission and the notifier are side-effect free for this state. -/
structure CoreState where
  pos : Position := {}
  reverse : ReverseEngine := ReverseEngine.init
  risk_long : Option RiskSet := none
  risk_short : Option RiskSet := none
  phase_long : ℕ := 0
  phase_short : ℕ := 0
  cfg : RiskConfig := {}

/-- EmreCore._open_leg (core.py lines 230-265): no-op when the slot is
already open; otherwise open the leg, reset that side of the reverse
engine, and install a fresh phase-0 risk set with its stop. -/
def CoreState.open_leg (s : CoreState) (side : Side) (entry : ℚ)
    (mem : Mem) (ts : ℤ) : CoreState :=
  let leg := s.pos.get_leg side
  if leg.is_open then s
  else
    let pos1 := (s.pos.open_leg side entry ts).1
    let rev1 := s.reverse.on_new_leg_opened side
    let risk := riskOpen s.cfg mem side entry ts
    match side with
    | .LONG =>
      { s with
        pos := pos1.set_leg .LONG
          { pos1.get_leg .LONG with
            stop := risk.stop, risk_set_id := risk.id, last_risk_update_ts := ts }
        reverse := rev1
        risk_long := some risk
        phase_long := 0 }
    | .SHORT =>
      { s with
        pos := pos1.set_leg .SHORT
          { pos1.get_leg .SHORT with
            stop := risk.stop, risk_set_id := risk.id, last_risk_update_ts := ts }
        reverse := rev1
        risk_short := some risk
        phase_short := 0 }

/-- EmreCore._close_leg (core.py lines 280-288): reset the leg slot and
drop that side's risk set and phase. -/
def CoreState.close_leg (s : CoreState) (side : Side) : CoreState :=
  let pos1 := s.pos.close_leg side
  match side with
  | .LONG => { s with pos := pos1, risk_long := none, phase_long := 0 }
  | .SHORT => { s with pos := pos1, risk_short := none, phase_short := 0 }

/-- EmreCore._reverse_entry (core.py lines 268-278): close the
currently-open leg when it is open, then open the opposite leg (the
docstring of the source: reverse is the ONLY exit mechanism in v1.2). -/
def CoreState.reverse_entry (s : CoreState) (from_side to_side : Side)
    (entry : ℚ) (mem : Mem) (ts : ℤ) : CoreState :=
  let from_leg := s.pos.get_leg from_side
  let s1 := if from_leg.is_open then s.close_leg from_side else s
  s1.open_leg to_side entry mem ts

/-- Read accessor for the per-side TP1 flag of a leg. -/
def Leg.tp1_hit (leg : Leg) : Bool := leg.tp_hits.tp1

/-- EmreCore._tp1_dual_leg (core.py lines 325-348): run the SHORT leg
confirmation first, applying authority transfer (close LONG) when it
newly fires, then the LONG leg confirmation symmetrically. -/
def CoreState.tp1_dual_leg (s : CoreState) (mem : Mem) (_ts : ℤ) : CoreState :=
  let s1 :=
    if s.pos.has_short then
      let s_leg := s.pos.short
      let chk := s.reverse.on_tick_tp1_check mem .SHORT s_leg.entry
      let sA := { s with reverse := chk.1 }
      if chk.2.isSome && !s_leg.tp1_hit then
        let sB := { sA with
          pos := sA.pos.set_leg .SHORT { s_leg with tp_hits := { s_leg.tp_hits with tp1 := true } }
          phase_short := 1 }
        if sB.pos.has_long then sB.close_leg .LONG else sB
      else sA
    else s
  if s1.pos.has_long then
    let l_leg := s1.pos.long
    let chk := s1.reverse.on_tick_tp1_check mem .LONG l_leg.entry
    let sA := { s1 with reverse := chk.1 }
    if chk.2.isSome && !l_leg.tp1_hit then
      let sB := { sA with
        pos := sA.pos.set_leg .LONG { l_leg with tp_hits := { l_leg.tp_hits with tp1 := true } }
        phase_long := 1 }
      if sB.pos.has_short then sB.close_leg .SHORT else sB
    else sA
  else s1

/-- Drift bound of core.py line 383, the EMRE_MAX_TP_DRIFT default. -/
def maxTpDrift : ℚ := 0.20

/-- drift_ok of core.py lines 380-384. -/
def drift_ok (old_tp new_tp : ℚ) : Prop :=
  old_tp = 0 ∨ |new_tp - old_tp| / |old_tp| ≤ maxTpDrift

instance (old_tp new_tp : ℚ) : Decidable (drift_ok old_tp new_tp) := by
  unfold drift_ok; infer_instance

/-- EmreCore._risk_update_leg (core.py lines 352-438): obtain a proposal
from the risk engine, apply the never-worse stop guard and the TP drift
guard, and install the resulting risk set only when the stop improved. -/
def CoreState.risk_update_leg (s : CoreState) (side : Side) (mem : Mem)
    (ts : ℤ) : CoreState :=
  let leg := s.pos.get_leg side
  if !leg.is_open then s
  else
    match (match side with | .LONG => s.risk_long | .SHORT => s.risk_short) with
    | none => s
    | some current =>
      let phase := match side with | .LONG => s.phase_long | .SHORT => s.phase_short
      let proposal := riskUpdate s.cfg mem side leg.entry current ts phase
      let old_stop := leg.stop
      let new_stop := proposal.stop
      let apply_stop : Bool := match side with
        | .LONG => decide (old_stop < new_stop)
        | .SHORT => decide (new_stop < old_stop)
      let regime := (mem.regime.getD "RANGE").toUpper
      let tp2 := if drift_ok current.tp2 proposal.tp2 then proposal.tp2 else current.tp2
      let tp3 := if regime = "TREND" then
          match side with
          | .LONG =>
            if current.tp3 ≤ proposal.tp3 ∧ drift_ok current.tp3 proposal.tp3
            then proposal.tp3 else current.tp3
          | .SHORT =>
            if proposal.tp3 ≤ current.tp3 ∧ drift_ok current.tp3 proposal.tp3
            then proposal.tp3 else current.tp3
        else if drift_ok current.tp3 proposal.tp3 then proposal.tp3 else current.tp3
      let tp4 := if regime = "TREND" then
          match side with
          | .LONG =>
            if current.tp4 ≤ proposal.tp4 ∧ drift_ok current.tp4 proposal.tp4
            then proposal.tp4 else current.tp4
          | .SHORT =>
            if proposal.tp4 ≤ current.tp4 ∧ drift_ok current.tp4 proposal.tp4
            then proposal.tp4 else current.tp4
        else if drift_ok current.tp4 proposal.tp4 then proposal.tp4 else current.tp4
      if apply_stop then
        let new_set : RiskSet :=
          { id := proposal.id, created_ts := proposal.created_ts,
            stop := new_stop, tp2 := tp2, tp3 := tp3, tp4 := tp4,
            meta := proposal.meta }
        let pos1 := s.pos.set_leg side { leg with stop := new_stop }
        match side with
        | .LONG => { s with pos := pos1, risk_long := some new_set }
        | .SHORT => { s with pos := pos1, risk_short := some new_set }
      else s

/-- Input series of the level-map builder (src/emre/emre_levels.py):
the 15m close/high/low series, the optional 4h and 1d close series, and
the current 1m price; absent or malformed entries of the Python mem
dict degrade to empty lists and zero, which the defaults model. -/
structure LevelMem where
  price : ℚ := 0
  closes15 : List ℚ := []
  highs15 : List ℚ := []
  lows15 : List ℚ := []
  closes4h : List ℚ := []
  closes1d : List ℚ := []

/-- Round-half-to-even of Python round(). -/
def pyRound (x : ℚ) : ℤ :=
  let f := ⌊x⌋
  let r := x - f
  if r < 1/2 then f
  else if 1/2 < r then f + 1
  else if f % 2 = 0 then f else f + 1

/-- emre_levels.py _quantize. -/
def quantize (px : ℚ) (step : ℚ) : ℚ :=
  if step ≤ 0 then px else (pyRound (px / step) : ℚ) * step

/-- Gap filter inside _uniq_sorted: keep a value only when it is at
least 0.5 away from the last kept one. -/
def keepFar (prev : ℚ) : List ℚ → List ℚ
  | [] => []
  | v :: rest => if 0.5 ≤ |v - prev| then v :: keepFar v rest else keepFar prev rest

/-- emre_levels.py _uniq_sorted (lines 28-33): sort the distinct values
ascending and drop any value within 0.5 of the previously kept one. -/
def uniq_sorted (levels : List ℚ) : List ℚ :=
  match List.insertionSort (· ≤ ·) levels.dedup with
  | [] => []
  | v :: rest => v :: keepFar v rest

/-- emre_levels.py _range_hi_lo. -/
def range_hi_lo (closes : List ℚ) (lookback : ℕ) : ℚ × ℚ :=
  if closes = [] then (0, 0)
  else
    let w := pyTail closes lookback
    (listMax w, listMin w)

/-- emre_levels.py _swing_levels. -/
def swing_levels (highs lows : List ℚ) (lookback : ℕ) : ℚ × ℚ :=
  if highs = [] ∨ lows = [] then (0, 0)
  else (listMax (pyTail highs lookback), listMin (pyTail lows lookback))

/-- Frequency table of quantized closes in first-occurrence order, the
Python dict bins of build_level_map. -/
def bumpBin : List (ℚ × ℕ) → ℚ → List (ℚ × ℕ)
  | [], q => [(q, 1)]
  | (k, n) :: rest, q =>
    if k = q then (k, n + 1) :: rest else (k, n) :: bumpBin rest q

/-- SR cluster levels of build_level_map (emre_levels.py lines 96-106):
bin the last 96 closes at the bin step, then keep the 8 most-populated
bin centers; Python sorted(key=count, reverse=True) is a stable
descending sort on counts, here insertionSort with the flipped order. -/
def srLevels (price : ℚ) (closes15 : List ℚ) : List ℚ :=
  if closes15 = [] then []
  else
    let bin_step := if 0 < price then max (price * 0.0025) 50 else 100
    let bins := (pyTail closes15 96).foldl (fun acc c => bumpBin acc (quantize c bin_step)) []
    let top := (List.insertionSort (fun a b : ℚ × ℕ => b.2 ≤ a.2) bins).take 8
    top.map Prod.fst

/-- HTF levels of build_level_map (emre_levels.py lines 109-115): for
each longer timeframe with data, its range hi/lo/mid. -/
def htfOf (c : List ℚ) (lk : ℕ) : List ℚ :=
  if c = [] then []
  else
    let hl := range_hi_lo c (min lk c.length)
    if hl.1 ≠ 0 ∧ hl.2 ≠ 0 then [hl.1, hl.2, (hl.1 + hl.2) / 2] else []

/-- Output of the level-map builder (emre_levels.py build_level_map
docstring). -/
structure LevelMap where
  price : ℚ := 0
  range_hi : ℚ := 0
  range_lo : ℚ := 0
  range_mid : ℚ := 0
  swing_hi : ℚ := 0
  swing_lo : ℚ := 0
  sr_levels : List ℚ := []
  htf_levels : List ℚ := []
  all : List ℚ := []

/-- emre_levels.py build_level_map (lines 71-139).  Python float
truthiness (if r_hi and r_lo) is nonzero testing. -/
def build_level_map (mem : LevelMem) : LevelMap :=
  let price := mem.price
  let rhl := range_hi_lo mem.closes15 32
  let r_hi := rhl.1
  let r_lo := rhl.2
  let r_mid := if r_hi ≠ 0 ∧ r_lo ≠ 0 then (r_hi + r_lo) / 2 else 0
  let shl := swing_levels mem.highs15 mem.lows15 48
  let s_hi := shl.1
  let s_lo := shl.2
  let sr_levels := srLevels price mem.closes15
  let htf_levels := htfOf mem.closes4h 60 ++ htfOf mem.closes1d 60
  let all0 :=
    (if r_hi ≠ 0 ∧ r_lo ≠ 0 then [r_hi, r_lo, r_mid] else []) ++
    (if s_hi ≠ 0 ∧ s_lo ≠ 0 then [s_hi, s_lo] else []) ++
    sr_levels ++ htf_levels
  let all1 := if 0 < price then
      all0.filter (fun lv => decide (0.85 * price ≤ lv) && decide (lv ≤ 1.15 * price))
    else all0
  { price := price
    range_hi := r_hi, range_lo := r_lo, range_mid := r_mid
    swing_hi := s_hi, swing_lo := s_lo
    sr_levels := uniq_sorted sr_levels
    htf_levels := uniq_sorted htf_levels
    all := uniq_sorted all1 }

/-- emre_levels.py _levels_above. -/
def levels_above (levels : List ℚ) (px : ℚ) : List ℚ :=
  levels.filter (fun lv => decide (px < lv))

/-- emre_levels.py _levels_below. -/
def levels_below (levels : List ℚ) (px : ℚ) : List ℚ :=
  levels.filter (fun lv => decide (lv < px))

/-- emre_levels.py pick_tp234 (lines 150-212): level-chain target
selection with deterministic extrapolation when structure is short.
Total by construction, the never-raises half of the selector contract. -/
def pick_tp234 (level_map : LevelMap) (side : Side) (entry stop tp1 : ℚ) :
    ℚ × ℚ × ℚ :=
  let levels := level_map.all
  let min_gap := max (max (|entry - stop| * 0.15) (|tp1 - entry| * 0.6)) (entry * 0.0008)
  match side with
  | .LONG =>
    let candidates := List.insertionSort (· ≤ ·) (levels_above levels (max entry tp1 + min_gap))
    match candidates with
    | c0 :: c1 :: c2 :: _ => (c0, c1, c2)
    | [c0, c1] => (c0, c1, c1 + max ((c1 - entry) * 0.5) ((c1 - c0) * 1))
    | [c0] =>
      let tp3 := c0 + max ((c0 - entry) * 0.6) (entry * 0.002)
      (c0, tp3, tp3 + max ((tp3 - entry) * 0.5) (entry * 0.0025))
    | [] =>
      let r := max (max (|entry - stop|) (|tp1 - entry|)) (entry * 0.002)
      (entry + 1.2 * r, entry + 1.8 * r, entry + 2.5 * r)
  | .SHORT =>
    let candidates := List.insertionSort (fun a b : ℚ => b ≤ a)
      (levels_below levels (min entry tp1 - min_gap))
    match candidates with
    | c0 :: c1 :: c2 :: _ => (c0, c1, c2)
    | [c0, c1] => (c0, c1, c1 - max ((entry - c1) * 0.5) ((c0 - c1) * 1))
    | [c0] =>
      let tp3 := c0 - max ((entry - c0) * 0.6) (entry * 0.002)
      (c0, tp3, tp3 - max ((entry - tp3) * 0.5) (entry * 0.0025))
    | [] =>
      let r := max (max (|entry - stop|) (|tp1 - entry|)) (entry * 0.002)
      (entry - 1.2 * r, entry - 1.8 * r, entry - 2.5 * r)

/-- emre_levels.py pick_gh (lines 216-228): nearest structural level
beyond the 8bp gap in trade direction, 0.2 percent extension fallback. -/
def pick_gh (level_map : LevelMap) (entry : ℚ) (side : Side) : ℚ :=
  let levels := level_map.all
  let min_gap := entry * 0.0008
  match side with
  | .LONG =>
    match List.insertionSort (· ≤ ·) (levels_above levels (entry + min_gap)) with
    | c :: _ => c
    | [] => entry + entry * 0.002
  | .SHORT =>
    match List.insertionSort (fun a b : ℚ => b ≤ a) (levels_below levels (entry - min_gap)) with
    | c :: _ => c
    | [] => entry - entry * 0.002

/-- emre_levels.py pick_tp_after_gh (lines 231-243): up to n structural
levels beyond GH at a 5bp-of-GH gap. -/
def pick_tp_after_gh (level_map : LevelMap) (gh : ℚ) (side : Side) (n : ℕ := 3) :
    List ℚ :=
  let levels := level_map.all
  let min_gap := gh * 0.0005
  match side with
  | .LONG => (List.insertionSort (· ≤ ·) (levels_above levels (gh + min_gap))).take n
  | .SHORT => (List.insertionSort (fun a b : ℚ => b ≤ a) (levels_below levels (gh - min_gap))).take n

/-- Extension step of pick_gh_tp234: px plus-or-minus 0.8 R in trade
direction with R = max(|gh - entry|, 0.002 entry). -/
def ghExt (gh entry : ℚ) (side : Side) (px : ℚ) (k : ℚ) : ℚ :=
  let r := max (|gh - entry|) (entry * 0.002)
  match side with
  | .LONG => px + k * r
  | .SHORT => px - k * r

/-- The while-loop of pick_gh_tp234 extending the target list to three
entries (tps has at most three entries coming in). -/
def extendTps (gh entry : ℚ) (side : Side) : List ℚ → ℚ × ℚ × ℚ
  | [] =>
    let a := ghExt gh entry side gh 0.8
    let b := ghExt gh entry side a 0.8
    (a, b, ghExt gh entry side b 0.8)
  | [a] =>
    let b := ghExt gh entry side a 0.8
    (a, b, ghExt gh entry side b 0.8)
  | [a, b] => (a, b, ghExt gh entry side b 0.8)
  | a :: b :: c :: _ => (a, b, c)

/-- emre_levels.py pick_gh_tp234 (lines 259-290): structural hierarchy
targets with the final monotonic clamp outward from GH. -/
def pick_gh_tp234 (level_map : LevelMap) (side : Side) (entry : ℚ) :
    ℚ × ℚ × ℚ × ℚ :=
  let gh := pick_gh level_map entry side
  let tps := pick_tp_after_gh level_map gh side 3
  let t := extendTps gh entry side tps
  match side with
  | .LONG =>
    let tp2 := max t.1 gh
    let tp3 := max t.2.1 tp2
    let tp4 := max t.2.2 tp3
    (gh, tp2, tp3, tp4)
  | .SHORT =>
    let tp2 := min t.1 gh
    let tp3 := min t.2.1 tp2
    let tp4 := min t.2.2 tp3
    (gh, tp2, tp3, tp4)

/-- JSON-like persisted value for the emre2 state file
(src/emre2/app.py): what json.load can hand back. -/
inductive JVal where
  | jnull
  | jbool (b : Bool)
  | jnum (q : ℚ)
  | jstr (s : String)
  | jarr (xs : List JVal)
  | jobj (fields : List (String × JVal))

/-- Persisted-state input as seen by load_state: the file may be
absent, unparseable, or parse to a JSON value. -/
inductive Persisted where
  | missing
  | malformed
  | parsed (v : JVal)

/-- The all-flat default state of app.py load_state. -/
def default_state : JVal :=
  .jobj [("pos", .jnull), ("cooldown_until", .jnum 0)]

/-- emre2/app.py load_state (lines 198-205): the default when the file
is absent or unparseable, otherwise the parsed value unchanged (no
schema validation).  Total, so reload never raises. -/
def load_state : Persisted → JVal
  | .missing => default_state
  | .malformed => default_state
  | .parsed v => v

/-- emre2/app.py save_state (lines 207-211): an atomic replace whose
durable artifact parses back to the written value. -/
def save_state (st : JVal) : Persisted := .parsed st

/-- Claim C8: opening a new leg on side X resets only side X's
Confirmer; the opposite side's Confirmer state (window contents and
confirmed flag alike) is unchanged. -/
theorem on_new_leg_opened_frame (eng : ReverseEngine) :
    (eng.on_new_leg_opened .LONG).tp1_short = eng.tp1_short ∧
    (eng.on_new_leg_opened .SHORT).tp1_long = eng.tp1_long :=
  ⟨rfl, rfl⟩

/-- Claim C6: for every level map and entry, structural-hierarchy mode
pick_gh_tp234 satisfies GH ≤ TP2 ≤ TP3 ≤ TP4 for LONG and the mirrored
GH ≥ TP2 ≥ TP3 ≥ TP4 for SHORT, extrapolated targets included: the
monotonic clamp is a post-condition of every branch. -/
theorem pick_gh_tp234_monotonic (lm : LevelMap) (entry : ℚ) :
    ((pick_gh_tp234 lm .LONG entry).1 ≤ (pick_gh_tp234 lm .LONG entry).2.1 ∧
      (pick_gh_tp234 lm .LONG entry).2.1 ≤ (pick_gh_tp234 lm .LONG entry).2.2.1 ∧
      (pick_gh_tp234 lm .LONG entry).2.2.1 ≤ (pick_gh_tp234 lm .LONG entry).2.2.2) ∧
    ((pick_gh_tp234 lm .SHORT entry).2.1 ≤ (pick_gh_tp234 lm .SHORT entry).1 ∧
      (pick_gh_tp234 lm .SHORT entry).2.2.1 ≤ (pick_gh_tp234 lm .SHORT entry).2.1 ∧
      (pick_gh_tp234 lm .SHORT entry).2.2.2 ≤ (pick_gh_tp234 lm .SHORT entry).2.2.1) := by
  constructor
  · exact ⟨le_max_right _ _, le_max_right _ _, le_max_right _ _⟩
  · exact ⟨min_le_right _ _, min_le_right _ _, min_le_right _ _⟩

/-- Claim C10: calling Position.open_leg on a side whose leg is already
open returns the existing leg and changes nothing: the position is
returned as-is, the supplied entry price and timestamp are ignored. -/
theorem open_leg_idempotent (p : Position) (side : Side) (e : ℚ) (ts : ℤ)
    (h : (p.get_leg side).is_open = true) :
    p.open_leg side e ts = (p, p.get_leg side) := by
  simp [Position.open_leg, h]

/-- Concrete position with an open LONG leg, for the open_leg witness. -/
def posLongOpen : Position :=
  { long := { is_open := true, side := some .LONG, entry := 100, stop := 95 } }

/-- Witness for open_leg_idempotent at a concrete open position: a
second open with a different entry price returns everything unchanged. -/
theorem open_leg_idempotent_witness :
    (posLongOpen.get_leg .LONG).is_open = true ∧
    posLongOpen.open_leg .LONG 123 9 = (posLongOpen, posLongOpen.get_leg .LONG) :=
  ⟨rfl, open_leg_idempotent posLongOpen .LONG 123 9 rfl⟩

/-- Claim C9 counterexample: a parsed state record that is present but
partial (a pos object carrying only a side field) is returned by
load_state exactly as stored — it is NOT replaced by the all-flat
default state, refuting the claim that partial or type-mismatched
reloads fail closed to the all-flat state.  (Downstream, app.py line
387 Position(**st[pos-key]) raises on this record instead.) -/
def legOnlyRecord : JVal :=
  .jobj [("pos", .jobj [("side", .jstr "LONG")])]

/-- Claim C9 is refuted at legOnlyRecord: load_state hands the partial
record through unchanged and the result is not the all-flat default. -/
theorem load_state_partial_counterexample :
    load_state (.parsed legOnlyRecord) = legOnlyRecord ∧
    legOnlyRecord ≠ default_state := by
  refine ⟨rfl, ?_⟩
  simp [legOnlyRecord, default_state]

/-- Claim C9 as amended: load_state is total (reload never raises), a
missing or unparseable state file fails closed to the all-flat default,
a parsed JSON value is returned unchanged (no schema validation), and a
save followed by a load round-trips the stored state exactly. -/
theorem load_state_fail_closed (v st : JVal) :
    load_state .missing = default_state ∧
    load_state .malformed = default_state ∧
    load_state (.parsed v) = v ∧
    load_state (save_state st) = st :=
  ⟨rfl, rfl, rfl, rfl⟩

/-- Claim C4: across the risk-update step, the applied stop never moves
against the trade direction: for LONG the leg's stop only ever stays or
rises, for SHORT it only ever stays or falls — equivalently, whenever
the stop changes at all it changed strictly in the trade's favor, so a
proposal that would worsen the stop leaves it unchanged. -/
theorem risk_update_never_worsens_stop (s : CoreState) (mem : Mem) (ts : ℤ) :
    ((s.risk_update_leg .LONG mem ts).pos.long.stop = s.pos.long.stop ∨
      s.pos.long.stop < (s.risk_update_leg .LONG mem ts).pos.long.stop) ∧
    ((s.risk_update_leg .SHORT mem ts).pos.short.stop = s.pos.short.stop ∨
      (s.risk_update_leg .SHORT mem ts).pos.short.stop < s.pos.short.stop) := by
  constructor
  · cases hopen : s.pos.long.is_open with
    | false => left; simp [CoreState.risk_update_leg, Position.get_leg, hopen]
    | true =>
      cases hrl : s.risk_long with
      | none => left; simp [CoreState.risk_update_leg, Position.get_leg, hopen, hrl]
      | some current =>
        by_cases hlt : s.pos.long.stop <
            (riskUpdate s.cfg mem .LONG s.pos.long.entry current ts s.phase_long).stop
        · right
          simp [CoreState.risk_update_leg, Position.get_leg, Position.set_leg,
            hopen, hrl, hlt]
        · left
          simp [CoreState.risk_update_leg, Position.get_leg, hopen, hrl, hlt]
  · cases hopen : s.pos.short.is_open with
    | false => left; simp [CoreState.risk_update_leg, Position.get_leg, hopen]
    | true =>
      cases hrs : s.risk_short with
      | none => left; simp [CoreState.risk_update_leg, Position.get_leg, hopen, hrs]
      | some current =>
        by_cases hlt : (riskUpdate s.cfg mem .SHORT s.pos.short.entry current ts
            s.phase_short).stop < s.pos.short.stop
        · right
          simp [CoreState.risk_update_leg, Position.get_leg, Position.set_leg,
            hopen, hrs, hlt]
        · left
          simp [CoreState.risk_update_leg, Position.get_leg, hopen, hrs, hlt]

/-- Claim C1 as amended: the orchestrator's counter-entry step
(_reverse_entry) closes the already-open leg rather than keeping it:
after the step the previously-open side is closed and exactly the
counter side is open — reverse entry is the only exit mechanism of the
v1.2 core.  (The ReverseEngine decision object on_counter_entry itself
only requests opening the counter side; the core never consults it and
closes the existing leg first.) -/
theorem counter_entry_closes_existing_leg (s : CoreState) (from_side : Side)
    (e : ℚ) (mem : Mem) (ts : ℤ) :
    ((s.reverse_entry from_side from_side.opp e mem ts).pos.get_leg from_side).is_open = false ∧
    ((s.reverse_entry from_side from_side.opp e mem ts).pos.get_leg from_side.opp).is_open = true := by
  cases from_side with
  | LONG =>
    cases hb : s.pos.long.is_open with
    | false =>
      cases hc : s.pos.short.is_open with
      | false =>
        simp [CoreState.reverse_entry, CoreState.open_leg, CoreState.close_leg,
          Position.close_leg, Position.open_leg, Position.get_leg, Position.set_leg,
          Leg.reset, Side.opp, hb, hc]
      | true =>
        simp [CoreState.reverse_entry, CoreState.open_leg, CoreState.close_leg,
          Position.close_leg, Position.open_leg, Position.get_leg, Position.set_leg,
          Leg.reset, Side.opp, hb, hc]
    | true =>
      cases hc : s.pos.short.is_open with
      | false =>
        simp [CoreState.reverse_entry, CoreState.open_leg, CoreState.close_leg,
          Position.close_leg, Position.open_leg, Position.get_leg, Position.set_leg,
          Leg.reset, Side.opp, hb, hc]
      | true =>
        simp [CoreState.reverse_entry, CoreState.open_leg, CoreState.close_leg,
          Position.close_leg, Position.open_leg, Position.get_leg, Position.set_leg,
          Leg.reset, Side.opp, hb, hc]
  | SHORT =>
    cases hb : s.pos.short.is_open with
    | false =>
      cases hc : s.pos.long.is_open with
      | false =>
        simp [CoreState.reverse_entry, CoreState.open_leg, CoreState.close_leg,
          Position.close_leg, Position.open_leg, Position.get_leg, Position.set_leg,
          Leg.reset, Side.opp, hb, hc]
      | true =>
        simp [CoreState.reverse_entry, CoreState.open_leg, CoreState.close_leg,
          Position.close_leg, Position.open_leg, Position.get_leg, Position.set_leg,
          Leg.reset, Side.opp, hb, hc]
    | true =>
      cases hc : s.pos.long.is_open with
      | false =>
        simp [CoreState.reverse_entry, CoreState.open_leg, CoreState.close_leg,
          Position.close_leg, Position.open_leg, Position.get_leg, Position.set_leg,
          Leg.reset, Side.opp, hb, hc]
      | true =>
        simp [CoreState.reverse_entry, CoreState.open_leg, CoreState.close_leg,
          Position.close_leg, Position.open_leg, Position.get_leg, Position.set_leg,
          Leg.reset, Side.opp, hb, hc]

/-- Core state with a single open LONG leg at entry 100, the starting
state of the counter-entry counterexample. -/
def coreLongOnly : CoreState :=
  { pos := { long := { is_open := true, side := some .LONG, entry := 100, stop := 95 } } }

/-- Snapshot with no series data, enough for the counter-entry path. -/
def memEmpty : Mem := { closes_1m := [] }

/-- Claim C1 is refuted at coreLongOnly: exactly one leg (LONG) is open
and a SHORT counter-entry signal arrives; afterwards the LONG leg does
NOT remain open — the core closed it before opening SHORT, so the two
legs are never simultaneously open on this path. -/
theorem counter_entry_counterexample :
    coreLongOnly.pos.has_long = true ∧
    (coreLongOnly.reverse_entry .LONG .SHORT 99 memEmpty 5).pos.has_long = false ∧
    (coreLongOnly.reverse_entry .LONG .SHORT 99 memEmpty 5).pos.has_short = true := by
  refine ⟨rfl, ?_, ?_⟩ <;>
    simp [coreLongOnly, memEmpty, CoreState.reverse_entry, CoreState.open_leg,
      CoreState.close_leg, Position.close_leg, Position.open_leg, Position.get_leg,
      Position.set_leg, Position.has_long, Position.has_short, Leg.reset]
  decide

/-- The confirmer instance the reverse engine owns for a side. -/
def ReverseEngine.confirmer (eng : ReverseEngine) : Side → MicroTP1
  | .LONG => eng.tp1_long
  | .SHORT => eng.tp1_short

/-- A LONG confirmation can only fire on a series of at least two closes
whose last close strictly exceeds the previous one. -/
theorem micro_update_long_fires_dir (st : MicroTP1) (mem : Mem) (e : ℚ)
    (h : ((st.update mem e .LONG).2).isSome = true) :
    2 ≤ mem.closes_1m.length ∧ pyPrev mem.closes_1m < pyLast mem.closes_1m := by
  by_cases hlen : mem.closes_1m.length < 2
  · simp [MicroTP1.update, hlen] at h
  · by_cases hdir : pyLast mem.closes_1m ≤ pyPrev mem.closes_1m
    · simp [MicroTP1.update, hlen, hdir] at h
    · exact ⟨Nat.le_of_not_lt hlen, lt_of_not_le hdir⟩

/-- A SHORT confirmation can only fire on a series of at least two
closes whose last close is strictly below the previous one. -/
theorem micro_update_short_fires_dir (st : MicroTP1) (mem : Mem) (e : ℚ)
    (h : ((st.update mem e .SHORT).2).isSome = true) :
    2 ≤ mem.closes_1m.length ∧ pyLast mem.closes_1m < pyPrev mem.closes_1m := by
  by_cases hlen : mem.closes_1m.length < 2
  · simp [MicroTP1.update, hlen] at h
  · by_cases hdir : pyPrev mem.closes_1m ≤ pyLast mem.closes_1m
    · simp [MicroTP1.update, hlen, hdir] at h
    · exact ⟨Nat.le_of_not_lt hlen, lt_of_not_le hdir⟩

/-- On a tick whose last close rose, every SHORT confirmer update takes
the countermove branch: it resets and does not fire. -/
theorem micro_update_short_on_up_tick (st : MicroTP1) (mem : Mem) (e : ℚ)
    (hlen : 2 ≤ mem.closes_1m.length)
    (hup : pyPrev mem.closes_1m < pyLast mem.closes_1m) :
    st.update mem e .SHORT = (st.reset, none) := by
  simp [MicroTP1.update, Nat.not_lt.mpr hlen, le_of_lt hup]

/-- On a tick whose last close fell, every LONG confirmer update takes
the countermove branch: it resets and does not fire. -/
theorem micro_update_long_on_down_tick (st : MicroTP1) (mem : Mem) (e : ℚ)
    (hlen : 2 ≤ mem.closes_1m.length)
    (hdn : pyLast mem.closes_1m < pyPrev mem.closes_1m) :
    st.update mem e .LONG = (st.reset, none) := by
  simp [MicroTP1.update, Nat.not_lt.mpr hlen, le_of_lt hdn]

/-- Claim C2: authority transfer in the dual-leg state.  When both legs
are open and side S's TP1 confirmation fires (its Confirmer update
returns a confirming price and S's TP1 flag is not yet set), the
opposite leg is closed unconditionally — no profit/loss condition
appears anywhere in the hypotheses — and S's leg remains open. -/
theorem tp1_authority_transfer (s : CoreState) (mem : Mem) (ts : ℤ) (side : Side)
    (hlong : s.pos.has_long = true) (hshort : s.pos.has_short = true)
    (hnothit : (s.pos.get_leg side).tp1_hit = false)
    (hfires : (((s.reverse.confirmer side).update mem
      (s.pos.get_leg side).entry side).2).isSome = true) :
    ((s.tp1_dual_leg mem ts).pos.get_leg side.opp).is_open = false ∧
    ((s.tp1_dual_leg mem ts).pos.get_leg side).is_open = true := by
  have hlopen : s.pos.long.is_open = true := (Bool.and_eq_true .. ▸ hlong).1
  have hsopen : s.pos.short.is_open = true := (Bool.and_eq_true .. ▸ hshort).1
  have hlside : (s.pos.long.side == some Side.LONG) = true := (Bool.and_eq_true .. ▸ hlong).2
  have hsside : (s.pos.short.side == some Side.SHORT) = true := (Bool.and_eq_true .. ▸ hshort).2
  cases side with
  | SHORT =>
    simp only [ReverseEngine.confirmer, Position.get_leg, Leg.tp1_hit] at hfires hnothit
    simp [CoreState.tp1_dual_leg, CoreState.close_leg, ReverseEngine.on_tick_tp1_check,
      Position.get_leg, Position.set_leg, Position.close_leg, Position.has_long,
      Position.has_short, Leg.reset, Leg.tp1_hit, Side.opp,
      hshort, hlong, hsopen, hlopen, hlside, hsside, hnothit, hfires]
  | LONG =>
    simp only [ReverseEngine.confirmer, Position.get_leg, Leg.tp1_hit] at hfires hnothit
    obtain ⟨hlen, hup⟩ := micro_update_long_fires_dir _ _ _ hfires
    have hshortupd :
        s.reverse.tp1_short.update mem s.pos.short.entry .SHORT =
          (s.reverse.tp1_short.reset, none) :=
      micro_update_short_on_up_tick _ _ _ hlen hup
    simp [CoreState.tp1_dual_leg, CoreState.close_leg, ReverseEngine.on_tick_tp1_check,
      Position.get_leg, Position.set_leg, Position.close_leg, Position.has_long,
      Position.has_short, Leg.reset, Leg.tp1_hit, Side.opp,
      hshort, hlong, hsopen, hlopen, hlside, hsside, hnothit, hfires, hshortupd]

/-- Dual-leg core state: LONG open at 100, SHORT open at 100, and a
SHORT confirmer window already holding one confirming close. -/
def coreDual : CoreState :=
  { pos :=
      { long := { is_open := true, side := some .LONG, entry := 100, stop := 95 },
        short := { is_open := true, side := some .SHORT, entry := 100, stop := 105 } },
    reverse :=
      { tp1_long := MicroTP1.init,
        tp1_short := { closes := [99.9], confirmed := false, maxlen := 5 } } }

/-- Downward tick: the last 1m close fell from 99.95 to 99.8, more than
15bp of total window move and beyond the 5bp entry buffer. -/
def memDown : Mem := { closes_1m := [99.95, 99.8] }

/-- Witness for tp1_authority_transfer: on the concrete dual-leg state
the SHORT confirmation fires and the LONG leg is closed while the SHORT
leg stays open. -/
theorem tp1_authority_transfer_witness :
    coreDual.pos.has_long = true ∧ coreDual.pos.has_short = true ∧
    (coreDual.pos.get_leg .SHORT).tp1_hit = false ∧
    (((coreDual.reverse.confirmer .SHORT).update memDown
      (coreDual.pos.get_leg .SHORT).entry .SHORT).2).isSome = true ∧
    ((coreDual.tp1_dual_leg memDown 0).pos.get_leg .LONG).is_open = false ∧
    ((coreDual.tp1_dual_leg memDown 0).pos.get_leg .SHORT).is_open = true := by
  have hfires : (((coreDual.reverse.confirmer .SHORT).update memDown
      (coreDual.pos.get_leg .SHORT).entry .SHORT).2).isSome = true := by
    norm_num [ReverseEngine.confirmer, coreDual, memDown, MicroTP1.update,
      Position.get_leg, pyLast, pyPrev, dequeAppend, abs_of_nonneg, abs_of_nonpos]
  refine ⟨rfl, rfl, rfl, hfires, ?_⟩
  exact tp1_authority_transfer coreDual memDown 0 .SHORT rfl rfl rfl hfires

/-- The directional countermove check of MicroTP1.update: the latest
close must be strictly beyond the previous one in trade direction. -/
def dirOk (side : Side) (prev last : ℚ) : Prop :=
  match side with
  | .LONG => prev < last
  | .SHORT => last < prev

instance (side : Side) (prev last : ℚ) : Decidable (dirOk side prev last) := by
  unfold dirOk; cases side <;> infer_instance

/-- The 5bp entry-buffer check of MicroTP1.update: the latest close must
be beyond entry by at least the buffer in trade direction. -/
def bufferOk (side : Side) (entry last : ℚ) : Prop :=
  match side with
  | .LONG => entry + entry * 0.00005 ≤ last
  | .SHORT => last ≤ entry - entry * 0.00005

instance (side : Side) (entry last : ℚ) : Decidable (bufferOk side entry last) := by
  unfold bufferOk; cases side <;> infer_instance

/-- Claim C3 as amended: only the countermove check resets the window.
A failed countermove check resets the window entirely (window empty,
confirmed false); but a failed 15bp total-move check or a failed 5bp
entry-buffer check merely stalls — the update returns no confirmation
while the window keeps the freshly appended close and the confirmed
flag is untouched. -/
theorem micro_tp1_reset_vs_stall (st : MicroTP1) (mem : Mem) (e : ℚ) (side : Side)
    (hlen : 2 ≤ mem.closes_1m.length) :
    (¬ dirOk side (pyPrev mem.closes_1m) (pyLast mem.closes_1m) →
      st.update mem e side = (st.reset, none)) ∧
    (dirOk side (pyPrev mem.closes_1m) (pyLast mem.closes_1m) →
      2 ≤ (dequeAppend st.maxlen st.closes (pyLast mem.closes_1m)).length →
      |pyLast (dequeAppend st.maxlen st.closes (pyLast mem.closes_1m)) -
        (dequeAppend st.maxlen st.closes (pyLast mem.closes_1m)).getD 0 0| < e * 0.00015 →
      st.update mem e side =
        ({ st with closes := dequeAppend st.maxlen st.closes (pyLast mem.closes_1m) }, none)) ∧
    (dirOk side (pyPrev mem.closes_1m) (pyLast mem.closes_1m) →
      2 ≤ (dequeAppend st.maxlen st.closes (pyLast mem.closes_1m)).length →
      e * 0.00015 ≤ |pyLast (dequeAppend st.maxlen st.closes (pyLast mem.closes_1m)) -
        (dequeAppend st.maxlen st.closes (pyLast mem.closes_1m)).getD 0 0| →
      ¬ bufferOk side e (pyLast mem.closes_1m) →
      st.update mem e side =
        ({ st with closes := dequeAppend st.maxlen st.closes (pyLast mem.closes_1m) }, none)) := by
  cases side with
  | LONG =>
    refine ⟨fun hdir => ?_, fun hdir hwlen htot => ?_, fun hdir hwlen htot hbuf => ?_⟩
    · have hle : pyLast mem.closes_1m ≤ pyPrev mem.closes_1m :=
        not_lt.mp (by simpa [dirOk] using hdir)
      simp [MicroTP1.update, Nat.not_lt.mpr hlen, hle]
    · have hd : pyPrev mem.closes_1m < pyLast mem.closes_1m := by simpa [dirOk] using hdir
      simp only [List.getD_eq_getElem?_getD] at htot
      simp [MicroTP1.update, Nat.not_lt.mpr hlen, not_le.mpr hd, Nat.not_lt.mpr hwlen, htot]
    · have hd : pyPrev mem.closes_1m < pyLast mem.closes_1m := by simpa [dirOk] using hdir
      have hb : pyLast mem.closes_1m < e + e * 0.00005 := by
        have := not_le.mp (by simpa [bufferOk] using hbuf)
        linarith
      simp only [List.getD_eq_getElem?_getD] at htot
      simp [MicroTP1.update, Nat.not_lt.mpr hlen, not_le.mpr hd, Nat.not_lt.mpr hwlen,
        not_lt.mpr htot, hb]
  | SHORT =>
    refine ⟨fun hdir => ?_, fun hdir hwlen htot => ?_, fun hdir hwlen htot hbuf => ?_⟩
    · have hle : pyPrev mem.closes_1m ≤ pyLast mem.closes_1m :=
        not_lt.mp (by simpa [dirOk] using hdir)
      simp [MicroTP1.update, Nat.not_lt.mpr hlen, hle]
    · have hd : pyLast mem.closes_1m < pyPrev mem.closes_1m := by simpa [dirOk] using hdir
      simp only [List.getD_eq_getElem?_getD] at htot
      simp [MicroTP1.update, Nat.not_lt.mpr hlen, not_le.mpr hd, Nat.not_lt.mpr hwlen, htot]
    · have hd : pyLast mem.closes_1m < pyPrev mem.closes_1m := by simpa [dirOk] using hdir
      have hb : e - e * 0.00005 < pyLast mem.closes_1m := by
        have := not_le.mp (by simpa [bufferOk] using hbuf)
        linarith
      simp only [List.getD_eq_getElem?_getD] at htot
      simp [MicroTP1.update, Nat.not_lt.mpr hlen, not_le.mpr hd, Nat.not_lt.mpr hwlen,
        not_lt.mpr htot, hb]

/-- Confirmer state holding one confirming close, for the C3 witness. -/
def stReset : MicroTP1 := { closes := [99.9], confirmed := false, maxlen := 5 }

/-- Confirmer state holding one confirming close, buffer-stall side. -/
def stStall : MicroTP1 := { closes := [99.2], confirmed := false, maxlen := 5 }

/-- Countermove tick for the C3 witness: the close fell 100 → 99. -/
def memCounter : Mem := { closes_1m := [100, 99] }

/-- Up tick below the entry buffer for the C3 witness: 99.0 → 99.5 with
entry 100, so the 5bp buffer check fails. -/
def memBelowBuffer : Mem := { closes_1m := [99.0, 99.5] }

/-- Witness for micro_tp1_reset_vs_stall: at a LONG leg with entry 100,
a countermove tick resets the non-empty window entirely, while an
up-tick that fails only the 5bp buffer keeps the appended window. -/
theorem micro_tp1_reset_vs_stall_witness :
    2 ≤ memCounter.closes_1m.length ∧
    ¬ dirOk .LONG (pyPrev memCounter.closes_1m) (pyLast memCounter.closes_1m) ∧
    stReset.update memCounter 100 .LONG = (stReset.reset, none) ∧
    2 ≤ memBelowBuffer.closes_1m.length ∧
    dirOk .LONG (pyPrev memBelowBuffer.closes_1m) (pyLast memBelowBuffer.closes_1m) ∧
    ¬ bufferOk .LONG 100 (pyLast memBelowBuffer.closes_1m) ∧
    dequeAppend stStall.maxlen stStall.closes (pyLast memBelowBuffer.closes_1m) = [99.2, 99.5] ∧
    stStall.update memBelowBuffer 100 .LONG =
      ({ stStall with
        closes := dequeAppend stStall.maxlen stStall.closes (pyLast memBelowBuffer.closes_1m) },
        none) := by
  refine ⟨by norm_num [memCounter], by norm_num [dirOk, pyPrev, pyLast, memCounter], ?_,
    by norm_num [memBelowBuffer], by norm_num [dirOk, pyPrev, pyLast, memBelowBuffer],
    by norm_num [bufferOk, pyLast, memBelowBuffer], ?_, ?_⟩
  · exact (micro_tp1_reset_vs_stall stReset memCounter 100 .LONG (by norm_num [memCounter])).1
      (by norm_num [dirOk, pyPrev, pyLast, memCounter])
  · norm_num [dequeAppend, stStall, memBelowBuffer, pyLast]
  · exact (micro_tp1_reset_vs_stall stStall memBelowBuffer 100 .LONG
        (by norm_num [memBelowBuffer])).2.2
      (by norm_num [dirOk, pyPrev, pyLast, memBelowBuffer])
      (by norm_num [dequeAppend, stStall, memBelowBuffer, pyLast])
      (by norm_num [dequeAppend, stStall, memBelowBuffer, pyLast, abs_of_nonneg])
      (by norm_num [bufferOk, pyLast, memBelowBuffer])

/-- Confirmer state reached from a fresh confirmer by one confirming
up-tick (98 → 99.2 at entry 100): the window holds 99.2. -/
def stChained : MicroTP1 := (MicroTP1.init.update { closes_1m := [98, 99.2] } 100 .LONG).1

/-- Claim C3 is refuted at stChained: the next update is an up-tick
(99.0 → 99.5) that passes the countermove and total-move checks but
fails the 5bp entry-buffer check (99.5 < 100.005); the claim says this
failed directional check resets the window entirely, yet the window
afterwards holds [99.2, 99.5] — non-empty — and no confirmation fired. -/
theorem micro_tp1_buffer_stall_counterexample :
    (stChained.update { closes_1m := [99.0, 99.5] } 100 .LONG).1.closes = [99.2, 99.5] ∧
    (stChained.update { closes_1m := [99.0, 99.5] } 100 .LONG).2 = none ∧
    (stChained.update { closes_1m := [99.0, 99.5] } 100 .LONG).1.closes ≠ [] := by
  norm_num [stChained, MicroTP1.init, MicroTP1.update, pyLast, pyPrev, dequeAppend,
    abs_of_nonneg, abs_of_nonpos]
  decide

instance : IsTotal ℚ (fun a b : ℚ => b ≤ a) := ⟨fun a b => le_total b a⟩

instance : IsTrans ℚ (fun a b : ℚ => b ≤ a) := ⟨fun _ _ _ h1 h2 => le_trans h2 h1⟩

/-- Every value the gap filter keeps is at least 0.5 beyond the anchor,
and the kept values are pairwise separated by at least 0.5. -/
theorem keepFar_spec (l : List ℚ) : ∀ prev : ℚ, l.Sorted (· ≤ ·) →
    (∀ x ∈ l, prev ≤ x) →
    (∀ x ∈ keepFar prev l, prev + 0.5 ≤ x) ∧
      (keepFar prev l).Pairwise (fun a b => a + 0.5 ≤ b) := by
  induction l with
  | nil => intro prev _ _; simp [keepFar]
  | cons v rest ih =>
    intro prev hsort hmem
    have hpv : prev ≤ v := hmem v (by simp)
    have hcons := List.sorted_cons.mp hsort
    by_cases h : (0.5 : ℚ) ≤ |v - prev|
    · have hv2 : prev + 0.5 ≤ v := by
        have habs : |v - prev| = v - prev := abs_of_nonneg (by linarith)
        rw [habs] at h
        linarith
      have hrec := ih v hcons.2 hcons.1
      constructor
      · intro x hx
        simp only [keepFar, if_pos h, List.mem_cons] at hx
        rcases hx with hx | hx
        · exact hx ▸ hv2
        · have := hrec.1 x hx
          linarith
      · simp only [keepFar, if_pos h]
        exact List.pairwise_cons.mpr ⟨hrec.1, hrec.2⟩
    · have hrec := ih prev hcons.2 (fun x hx => le_trans hpv (hcons.1 x hx))
      simpa [keepFar, h] using hrec

/-- The output of uniq_sorted is pairwise separated by 0.5. -/
theorem uniq_sorted_pairwise (l : List ℚ) :
    (uniq_sorted l).Pairwise (fun a b => a + 0.5 ≤ b) := by
  unfold uniq_sorted
  cases hs : List.insertionSort (· ≤ ·) l.dedup with
  | nil => simp
  | cons v rest =>
    have hsorted : (v :: rest).Sorted (· ≤ ·) := hs ▸ List.sorted_insertionSort _ _
    have hcons := List.sorted_cons.mp hsorted
    have hspec := keepFar_spec rest v hcons.2 hcons.1
    exact List.pairwise_cons.mpr ⟨hspec.1, hspec.2⟩

/-- Claim C7: for every input series, the all list of the level map is
strictly ascending and every pair of its entries differs by at least
the 0.5-unit merge tolerance. -/
theorem build_level_map_all_separated (mem : LevelMem) :
    ((build_level_map mem).all).Pairwise (fun a b => a < b ∧ 0.5 ≤ b - a) :=
  List.Pairwise.imp (fun h => ⟨by linarith, by linarith⟩) (uniq_sorted_pairwise _)

/-- Sorted ascending candidate list facts: strict ascent (given no
duplicate levels) and every candidate strictly beyond the threshold. -/
theorem candidates_facts_above (levels : List ℚ) (hnd : levels.Nodup) (px : ℚ) :
    (List.insertionSort (· ≤ ·) (levels_above levels px)).Sorted (· < ·) ∧
    ∀ x ∈ List.insertionSort (· ≤ ·) (levels_above levels px), px < x := by
  constructor
  · exact (List.sorted_insertionSort _ _).lt_of_le
      (((List.perm_insertionSort _ _).nodup_iff).mpr (hnd.filter _))
  · intro x hx
    have := (List.mem_insertionSort _).mp hx
    have := List.mem_filter.mp this
    simpa using this.2

/-- Sorted descending candidate list facts: strict descent (given no
duplicate levels) and every candidate strictly below the threshold. -/
theorem candidates_facts_below (levels : List ℚ) (hnd : levels.Nodup) (px : ℚ) :
    (List.insertionSort (fun a b : ℚ => b ≤ a) (levels_below levels px)).Sorted (fun a b => b < a) ∧
    ∀ x ∈ List.insertionSort (fun a b : ℚ => b ≤ a) (levels_below levels px), x < px := by
  constructor
  · have hge : (List.insertionSort (fun a b : ℚ => b ≤ a) (levels_below levels px)).Sorted (· ≥ ·) :=
      List.sorted_insertionSort _ _
    have hnodup : (List.insertionSort (fun a b : ℚ => b ≤ a) (levels_below levels px)).Nodup :=
      ((List.perm_insertionSort _ _).nodup_iff).mpr (hnd.filter _)
    exact hge.gt_of_ge hnodup
  · intro x hx
    have := (List.mem_insertionSort _).mp hx
    have := List.mem_filter.mp this
    simpa using this.2

/-- Claim C5 as amended: for every level list without duplicate values
(the builder's all list never has any, by the 0.5 merge tolerance) and
every positive entry, level-chain mode returns three pairwise-distinct
targets strictly ordered away from entry in trade direction — entry <
TP2 < TP3 < TP4 for LONG and entry > TP2 > TP3 > TP4 for SHORT — in
every branch including the extrapolation fallbacks, and it is total
(never an error).  With duplicated levels in the list the distinctness
clause fails, which is the only correction to the claim. -/
theorem pick_tp234_ordered (lm : LevelMap) (entry stop tp1 : ℚ)
    (hnd : lm.all.Nodup) (hent : 0 < entry) :
    (entry < (pick_tp234 lm .LONG entry stop tp1).1 ∧
      (pick_tp234 lm .LONG entry stop tp1).1 < (pick_tp234 lm .LONG entry stop tp1).2.1 ∧
      (pick_tp234 lm .LONG entry stop tp1).2.1 < (pick_tp234 lm .LONG entry stop tp1).2.2) ∧
    ((pick_tp234 lm .SHORT entry stop tp1).1 < entry ∧
      (pick_tp234 lm .SHORT entry stop tp1).2.1 < (pick_tp234 lm .SHORT entry stop tp1).1 ∧
      (pick_tp234 lm .SHORT entry stop tp1).2.2 < (pick_tp234 lm .SHORT entry stop tp1).2.1) := by
  constructor
  · have hthr : entry < max entry tp1 +
        max (max (|entry - stop| * 0.15) (|tp1 - entry| * 0.6)) (entry * 0.0008) := by
      have h1 : entry ≤ max entry tp1 := le_max_left _ _
      have h2 : (0:ℚ) < entry * 0.0008 := by positivity
      have h3 : entry * 0.0008 ≤
          max (max (|entry - stop| * 0.15) (|tp1 - entry| * 0.6)) (entry * 0.0008) :=
        le_max_right _ _
      linarith
    obtain ⟨hsort, hbeyond⟩ := candidates_facts_above lm.all hnd
      (max entry tp1 + max (max (|entry - stop| * 0.15) (|tp1 - entry| * 0.6)) (entry * 0.0008))
    rcases hc : List.insertionSort (· ≤ ·) (levels_above lm.all
        (max entry tp1 + max (max (|entry - stop| * 0.15) (|tp1 - entry| * 0.6)) (entry * 0.0008)))
      with _ | ⟨c0, _ | ⟨c1, _ | ⟨c2, rest⟩⟩⟩
    · simp only [pick_tp234, hc]
      have hr : entry * 0.002 ≤ max (max (|entry - stop|) (|tp1 - entry|)) (entry * 0.002) :=
        le_max_right _ _
      have h2 : (0:ℚ) < entry * 0.002 := by positivity
      refine ⟨by linarith, by linarith, by linarith⟩
    · rw [hc] at hbeyond
      have hc0 : entry < c0 := lt_trans hthr (hbeyond c0 (List.mem_cons_self _ _))
      simp only [pick_tp234, hc]
      have h2 : (0:ℚ) < entry * 0.002 := by positivity
      have h25 : (0:ℚ) < entry * 0.0025 := by positivity
      have hm1 : entry * 0.002 ≤ max ((c0 - entry) * 0.6) (entry * 0.002) := le_max_right _ _
      have hm2 : entry * 0.0025 ≤
          max ((c0 + max ((c0 - entry) * 0.6) (entry * 0.002) - entry) * 0.5) (entry * 0.0025) :=
        le_max_right _ _
      refine ⟨hc0, by linarith, by linarith⟩
    · rw [hc] at hbeyond hsort
      have hc0 : entry < c0 := lt_trans hthr (hbeyond c0 (List.mem_cons_self _ _))
      have h01 : c0 < c1 := (List.sorted_cons.mp hsort).1 c1 (List.mem_cons_self _ _)
      simp only [pick_tp234, hc]
      have hm : (c1 - c0) * 1 ≤ max ((c1 - entry) * 0.5) ((c1 - c0) * 1) := le_max_right _ _
      refine ⟨hc0, h01, by linarith⟩
    · rw [hc] at hbeyond hsort
      have hc0 : entry < c0 := lt_trans hthr (hbeyond c0 (List.mem_cons_self _ _))
      have h01 : c0 < c1 := (List.sorted_cons.mp hsort).1 c1 (List.mem_cons_self _ _)
      have h12 : c1 < c2 :=
        (List.sorted_cons.mp (List.sorted_cons.mp hsort).2).1 c2 (List.mem_cons_self _ _)
      simp only [pick_tp234, hc]
      exact ⟨hc0, h01, h12⟩
  · have hthr : min entry tp1 -
        max (max (|entry - stop| * 0.15) (|tp1 - entry| * 0.6)) (entry * 0.0008) < entry := by
      have h1 : min entry tp1 ≤ entry := min_le_left _ _
      have h2 : (0:ℚ) < entry * 0.0008 := by positivity
      have h3 : entry * 0.0008 ≤
          max (max (|entry - stop| * 0.15) (|tp1 - entry| * 0.6)) (entry * 0.0008) :=
        le_max_right _ _
      linarith
    obtain ⟨hsort, hbeyond⟩ := candidates_facts_below lm.all hnd
      (min entry tp1 - max (max (|entry - stop| * 0.15) (|tp1 - entry| * 0.6)) (entry * 0.0008))
    rcases hc : List.insertionSort (fun a b : ℚ => b ≤ a) (levels_below lm.all
        (min entry tp1 - max (max (|entry - stop| * 0.15) (|tp1 - entry| * 0.6)) (entry * 0.0008)))
      with _ | ⟨c0, _ | ⟨c1, _ | ⟨c2, rest⟩⟩⟩
    · simp only [pick_tp234, hc]
      have hr : entry * 0.002 ≤ max (max (|entry - stop|) (|tp1 - entry|)) (entry * 0.002) :=
        le_max_right _ _
      have h2 : (0:ℚ) < entry * 0.002 := by positivity
      refine ⟨by linarith, by linarith, by linarith⟩
    · rw [hc] at hbeyond
      have hc0 : c0 < entry := lt_trans (hbeyond c0 (List.mem_cons_self _ _)) hthr
      simp only [pick_tp234, hc]
      have h2 : (0:ℚ) < entry * 0.002 := by positivity
      have h25 : (0:ℚ) < entry * 0.0025 := by positivity
      have hm1 : entry * 0.002 ≤ max ((entry - c0) * 0.6) (entry * 0.002) := le_max_right _ _
      have hm2 : entry * 0.0025 ≤
          max ((entry - (c0 - max ((entry - c0) * 0.6) (entry * 0.002))) * 0.5) (entry * 0.0025) :=
        le_max_right _ _
      refine ⟨hc0, by linarith, by linarith⟩
    · rw [hc] at hbeyond hsort
      have hc0 : c0 < entry := lt_trans (hbeyond c0 (List.mem_cons_self _ _)) hthr
      have h01 : c1 < c0 := (List.sorted_cons.mp hsort).1 c1 (List.mem_cons_self _ _)
      simp only [pick_tp234, hc]
      have hm : (c0 - c1) * 1 ≤ max ((entry - c1) * 0.5) ((c0 - c1) * 1) := le_max_right _ _
      refine ⟨hc0, h01, by linarith⟩
    · rw [hc] at hbeyond hsort
      have hc0 : c0 < entry := lt_trans (hbeyond c0 (List.mem_cons_self _ _)) hthr
      have h01 : c1 < c0 := (List.sorted_cons.mp hsort).1 c1 (List.mem_cons_self _ _)
      have h12 : c2 < c1 :=
        (List.sorted_cons.mp (List.sorted_cons.mp hsort).2).1 c2 (List.mem_cons_self _ _)
      simp only [pick_tp234, hc]
      exact ⟨hc0, h01, h12⟩

/-- The spec scenario level map: levels 103, 105, 110. -/
def lmScenario : LevelMap := { all := [103, 105, 110] }

/-- Witness for pick_tp234_ordered at the spec scenario (entry 100,
stop 98, tp1 101, LONG): the selector returns exactly (103, 105, 110)
and both ordering chains hold. -/
theorem pick_tp234_ordered_witness :
    lmScenario.all.Nodup ∧ (0:ℚ) < 100 ∧
    pick_tp234 lmScenario .LONG 100 98 101 = (103, 105, 110) ∧
    ((100 < (pick_tp234 lmScenario .LONG 100 98 101).1 ∧
      (pick_tp234 lmScenario .LONG 100 98 101).1 < (pick_tp234 lmScenario .LONG 100 98 101).2.1 ∧
      (pick_tp234 lmScenario .LONG 100 98 101).2.1 < (pick_tp234 lmScenario .LONG 100 98 101).2.2) ∧
    ((pick_tp234 lmScenario .SHORT 100 98 101).1 < 100 ∧
      (pick_tp234 lmScenario .SHORT 100 98 101).2.1 < (pick_tp234 lmScenario .SHORT 100 98 101).1 ∧
      (pick_tp234 lmScenario .SHORT 100 98 101).2.2 <
        (pick_tp234 lmScenario .SHORT 100 98 101).2.1)) := by
  refine ⟨?_, by norm_num, ?_, ?_⟩
  · norm_num [lmScenario]
  · norm_num [pick_tp234, lmScenario, levels_above, abs_of_nonneg, abs_of_nonpos]
  · exact pick_tp234_ordered lmScenario 100 98 101 (by norm_num [lmScenario]) (by norm_num)

/-- A level list with the same value three times. -/
def lmDup : LevelMap := { all := [105, 105, 105] }

/-- Claim C5 is refuted at lmDup: with the level list [105, 105, 105]
(entry 100, stop 98, tp1 101, LONG) the selector returns (105, 105,
105) — the three targets are neither distinct nor strictly ordered. -/
theorem pick_tp234_dup_counterexample :
    pick_tp234 lmDup .LONG 100 98 101 = (105, 105, 105) ∧
    (pick_tp234 lmDup .LONG 100 98 101).1 = (pick_tp234 lmDup .LONG 100 98 101).2.1 := by
  constructor <;>
    norm_num [pick_tp234, lmDup, levels_above, abs_of_nonneg, abs_of_nonpos]
